import Mathlib

/-!
Shallow embedding of the `nowhere-actors` crate (the actor runtime of the
`view-from-nowhere` repository) and verification of its specification.

Conventions of the embedding:
* `f64` values (token counts, qps, seconds) are embedded as `ℚ`;
* `tokio::time::Instant` is embedded as a rational time stamp, and
  `Instant::duration_since` saturates at zero, exactly as in tokio;
* `HashMap<K, V>` is embedded as `K → Option V`;
* a spawned (detached) task is embedded by the data the actor hands to it
  (the computed wait, the write-outcome-dependent event trace), since the
  actor itself never blocks on it.
-/

namespace Nowhere

/-! ## Rate limiter (`src/nowhere-actors/src/rate.rs`) -/

/-- Bucket configuration: `BucketCfg { qps: f64, burst: f64 }`.
`burst` is stored as a float obtained from a `u32` cast. -/
structure BucketCfg where
  qps : ℚ
  burst : ℚ
deriving DecidableEq, Repr

/-- `BucketState { cfg, tokens: f64, last: Instant }`. -/
structure BucketState where
  cfg : BucketCfg
  tokens : ℚ
  last : ℚ
deriving DecidableEq, Repr

/-- `BucketState::new(cfg)`: a created bucket starts full (`tokens = cfg.burst`)
with `last` set to the creation instant. -/
def BucketState.new (cfg : BucketCfg) (now : ℚ) : BucketState :=
  { cfg := cfg, tokens := cfg.burst, last := now }

/-- `BucketState::needed_wait(&mut self, need, now)`: refill
(`dt = now.duration_since(last)`, saturating at zero; `last := now`;
`tokens := min(tokens + dt*qps, burst)`), then either consume `need` tokens
with zero wait, or reserve (`tokens := 0`) and return
`(need - tokens)/qps` clamped below at `0` (`secs.max(0.0)`).
Returns the updated bucket state and the wait in seconds. -/
def BucketState.needed_wait (b : BucketState) (need : ℚ) (now : ℚ) :
    BucketState × ℚ :=
  let dt := max (now - b.last) 0
  let refilled := min (b.tokens + dt * b.cfg.qps) b.cfg.burst
  if need ≤ refilled then
    ({ b with tokens := refilled - need, last := now }, 0)
  else
    ({ b with tokens := 0, last := now }, max ((need - refilled) / b.cfg.qps) 0)

/-- `RateKey` is a string wrapper; we use `String` directly.
The bucket map `HashMap<RateKey, BucketState>`. -/
def Buckets : Type := String → Option BucketState

/-- The empty bucket map of `RateLimiter::new()`. -/
def Buckets.empty : Buckets := fun _ => none

/-- Messages of the rate limiter actor. An `Acquire` carries the monotonic
instant `now` captured at the start of its dispatch; an `Upsert` carries the
instant used as `last` if it creates a bucket (`Instant::now()` inside
`BucketState::new`). The `reply` channel is left implicit: the computed
wait is what the actor hands to the detached replying task. -/
inductive RateMsg where
  | upsert (key : String) (qps : ℚ) (burst : ℕ) (now : ℚ)
  | acquire (key : String) (cost : ℕ) (now : ℚ)
deriving DecidableEq, Repr

/-- `RateLimiter::upsert(key, qps, burst)`: build `cfg` with
`burst as f64`, then `entry(key).and_modify(|b| b.cfg = cfg)
.or_insert_with(|| BucketState::new(cfg))`. There is no validation of
`qps`; the configuration is stored unconditionally. -/
def RateLimiter.upsert (bs : Buckets) (key : String) (qps : ℚ) (burst : ℕ)
    (now : ℚ) : Buckets :=
  let cfg : BucketCfg := { qps := qps, burst := (burst : ℚ) }
  fun k =>
    if k = key then
      match bs key with
      | some b => some { b with cfg := cfg }
      | none => some (BucketState.new cfg now)
    else bs k

/-- The `Acquire` arm of `RateLimiter::handle`: look up or lazily create the
bucket with defaults `qps = 1.0, burst = 1.0`, run `needed_wait(cost as f64,
now)`, store the updated bucket, and return the wait that is handed to the
detached `tokio::spawn`ed task (which sleeps `wait` if nonzero and then sends
the permit; the actor loop itself never sleeps). -/
def RateLimiter.acquire (bs : Buckets) (key : String) (cost : ℕ) (now : ℚ) :
    Buckets × ℚ :=
  let st :=
    match bs key with
    | some b => b
    | none => BucketState.new { qps := 1, burst := 1 } now
  let r := st.needed_wait (cost : ℚ) now
  (fun k => if k = key then some r.1 else bs k, r.2)

/-- `RateLimiter::handle`: dispatch one message; `Upsert` returns no wait,
`Acquire` returns the wait handed to the detached replying task. -/
def RateLimiter.handle (m : RateMsg) (bs : Buckets) : Buckets × Option ℚ :=
  match m with
  | .upsert key qps burst now => (RateLimiter.upsert bs key qps burst now, none)
  | .acquire key cost now =>
      let r := RateLimiter.acquire bs key cost now
      (r.1, some r.2)

/-- Process a list of messages in order (the actor loop handles its mailbox
strictly sequentially), keeping only the bucket-map state. -/
def RateLimiter.run (msgs : List RateMsg) (bs : Buckets) : Buckets :=
  msgs.foldl (fun s m => (RateLimiter.handle m s).1) bs

/-! ## Persistence actor (`src/nowhere-actors/src/store.rs`) -/

/-- A registered watcher: the `oneshot::Sender<()>` stored in the watcher
map, identified by an opaque id, together with whether its receiving end is
already closed (`tx.is_closed()`). -/
structure Watcher where
  id : ℕ
  closed : Bool
deriving DecidableEq, Repr

/-- The watcher-relevant state of `StoreActor`: the map
`watchers: HashMap<Uuid, Vec<oneshot::Sender<()>>>` (claim ids embedded as
strings) plus the observable log of permit sends: `fires` lists, in order,
the ids of watchers on which `tx.send(())` was attempted. -/
structure StoreState where
  watchers : String → List Watcher
  fires : List ℕ

/-- Messages of the persistence actor (`StoreMsg`). Payloads irrelevant to
the watcher state are omitted; `UpsertArtifact` keeps the fields the handler
reads (`claim_id`, `claim_relevance`). -/
inductive StoreMsg where
  | insertClaim
  | upsertArtifact (claim : String) (relevant : Bool)
  | getArtifact
  | watchArtifacts (claim : String) (w : Watcher)
  | artifactUpserted (claim : String)
  | searchArtifacts
  | listEntitiesByName
deriving DecidableEq, Repr

/-- The synchronous effect of `StoreActor::handle` on the watcher state.
`WatchArtifacts` sweeps closed senders (`retain(|tx| !tx.is_closed())`) and
pushes the new one; `ArtifactUpserted` removes the claim's entry and sends
on every listener in insertion order. All other arms only spawn detached
tasks and leave the watcher state untouched. -/
def StoreActor.handle (m : StoreMsg) (s : StoreState) : StoreState :=
  match m with
  | .watchArtifacts c w =>
      { s with
        watchers := fun k =>
          if k = c then ((s.watchers c).filter fun t => !t.closed) ++ [w]
          else s.watchers k }
  | .artifactUpserted c =>
      { watchers := fun k => if k = c then [] else s.watchers k,
        fires := s.fires ++ (s.watchers c).map (·.id) }
  | _ => s

/-- Process a list of store messages in mailbox order. -/
def StoreActor.run (msgs : List StoreMsg) (s : StoreState) : StoreState :=
  msgs.foldl (fun st m => StoreActor.handle m st) s

/-- Observable steps of a detached task spawned by `StoreActor::handle`. -/
inductive StoreEvent where
  | acquirePermit
  | write
  | logError (kind : String)
  | enqueueSelf (claim : String)
  | releasePermit
  | read
  | replySent
deriving DecidableEq, Repr

/-- Trace of the detached task spawned by the `UpsertArtifact` arm:
acquire the single write permit (on failure log
`store.upsert.acquire_failed` and return), perform the write, on failure
log `store.upsert.failed`, else if `claim_relevance` self-enqueue
`ArtifactUpserted { claim }`, then drop the permit. No reply channel
exists, so no reply is ever sent. -/
def upsertTaskEvents (permitOk writeOk relevant : Bool) (claim : String) :
    List StoreEvent :=
  if permitOk then
    .acquirePermit :: .write ::
      ((if writeOk then
          if relevant then [StoreEvent.enqueueSelf claim] else []
        else [StoreEvent.logError "store.upsert.failed"])
        ++ [StoreEvent.releasePermit])
  else
    [StoreEvent.logError "store.upsert.acquire_failed"]

/-- Trace of the detached task spawned by the `GetArtifact` arm: run the
read query and send the result on the caller's reply channel; the write
permit is never touched. -/
def getArtifactTaskEvents : List StoreEvent :=
  [StoreEvent.read, StoreEvent.replySent]

/-! ## Actor core (`src/nowhere-actors/src/actor.rs`) -/

/-- One occurrence the actor loop's `select!` can observe: the shutdown
broadcast delivering, the mailbox delivering a message, or the mailbox
closing because every address was dropped (`rx.recv()` returning `None`). -/
inductive LoopEvent (M : Type) where
  | shutdownSignal
  | message (m : M)
  | mailboxClosed
deriving DecidableEq, Repr

/-- The result of one `actor.handle(msg, &mut ctx)` call, as the loop
observes it: the next actor state, the error (if the handler returned
`Err`, which stops the actor), and the value of `ctx.stop` afterwards. -/
def Handler (S M E : Type) : Type := S → M → S × Option E × Bool

/-- Body of the actor task of `spawn_actor_with_shutdown` /
`Reserved::start_with_shutdown`, run over a linearization of observed
events: shutdown → break with `Ok(())`; mailbox closed → break with
`Ok(())`; message → run the handler, returning `Err(e)` if it errored,
breaking with `Ok(())` if `ctx.stop` was set, else continuing. `none`
means the loop is still awaiting further events. -/
def actorLoop (h : Handler S M E) : S → List (LoopEvent M) →
    Option (Except E Unit)
  | _, [] => none
  | _, .shutdownSignal :: _ => some (Except.ok ())
  | _, .mailboxClosed :: _ => some (Except.ok ())
  | s, .message m :: rest =>
      match h s m with
      | (_, some e, _) => some (Except.error e)
      | (s', none, stop) =>
          if stop then some (Except.ok ()) else actorLoop h s' rest

/-- The join-future of the task spawned by `spawn_actor_with_shutdown`
(`src/nowhere-actors/src/actor.rs:228`). -/
def spawnActorJoin (h : Handler S M E) (s : S) (evs : List (LoopEvent M)) :
    Option (Except E Unit) :=
  actorLoop h s evs

/-- The join-future of the task spawned by `Reserved::start_with_shutdown`
(`src/nowhere-actors/src/actor.rs:327`); its loop body is identical to the
one of `spawn_actor_with_shutdown`. -/
def reservedStartJoin (h : Handler S M E) (s : S) (evs : List (LoopEvent M)) :
    Option (Except E Unit) :=
  actorLoop h s evs

/-- Why the actor task stopped — the spec's enumeration of stop causes. -/
inductive StopReason (E : Type) where
  | handlerError (e : E)
  | shutdownReceived
  | mailboxDropped
  | stopRequested
deriving DecidableEq, Repr

/-- Classify the stop of the actor loop on the same event linearization:
which of the spec's four stop causes ended the run (`none`: still
running). -/
def actorStopReason (h : Handler S M E) : S → List (LoopEvent M) →
    Option (StopReason E)
  | _, [] => none
  | _, .shutdownSignal :: _ => some .shutdownReceived
  | _, .mailboxClosed :: _ => some .mailboxDropped
  | s, .message m :: rest =>
      match h s m with
      | (_, some e, _) => some (.handlerError e)
      | (s', none, stop) =>
          if stop then some .stopRequested else actorStopReason h s' rest

/-! ## Actor system (`src/nowhere-actors/src/system.rs`) -/

/-- `ActorSystem::graceful_shutdown` joins tracked tasks one by one
(`res??`): the first `Err` encountered is returned; if every task
completed with `Ok(())`, the result is `Ok(())`. The list holds the task
results in join order. -/
def joinAll {E : Type} : List (Except E Unit) → Except E Unit
  | [] => Except.ok ()
  | Except.ok _ :: rest => joinAll rest
  | Except.error e :: _ => Except.error e

/-- Result of `ActorSystem::graceful_shutdown`: it first fires the shutdown
broadcast (`let _ = self.shutdown_tx.send(())`), then drains the join set. -/
structure ShutdownRun (E : Type) where
  signalFired : Bool
  result : Except E Unit

/-- `ActorSystem::graceful_shutdown(self)` over the joined task results. -/
def gracefulShutdown {E : Type} (tasks : List (Except E Unit)) :
    ShutdownRun E :=
  { signalFired := true, result := joinAll tasks }

/-! ## Registry and builder (`src/nowhere-actors/src/registry.rs`,
`src/nowhere-actors/src/builder.rs`) -/

/-- A value stored in the registry behind `Box<dyn Any + Send + Sync>`:
its dynamic type name together with an opaque payload (address ids are
embedded as naturals). -/
def DynBox : Type := String × ℕ

/-- `Registry.by_name : DashMap<String, Box<dyn Any + Send + Sync>>`. -/
def Registry : Type := String → Option DynBox

/-- `Registry::default()`: the empty map. -/
def Registry.emptyReg : Registry := fun _ => none

/-- `Registry::insert_named(name, value)`: overwrites any previous entry. -/
def Registry.insert_named (reg : Registry) (name : String) (ty : String)
    (v : ℕ) : Registry :=
  fun n => if n = name then some (ty, v) else reg n

/-- `Registry::get_named::<T>(name)`:
`self.by_name.get(name)?.downcast_ref::<T>().cloned()` — `None` when the
name is absent, `None` when the stored dynamic type differs from `T`,
`Some` clone otherwise. Never panics. -/
def Registry.get_named (reg : Registry) (ty : String) (name : String) :
    Option ℕ :=
  match reg name with
  | none => none
  | some (t, v) => if t = ty then some v else none

/-- The type name `std::any::type_name::<Addr<A>>()` for an actor type `A`
(actor types are embedded by their name strings). -/
def addrTypeName (A : String) : String := "Addr<" ++ A ++ ">"

/-- `Registry::insert_addr::<A>(name, addr)`: stores under the composed key
`format!("{}::{}", type_name::<Addr<A>>(), name)`. -/
def Registry.insert_addr (reg : Registry) (A : String) (name : String)
    (v : ℕ) : Registry :=
  reg.insert_named (addrTypeName A ++ "::" ++ name) (addrTypeName A) v

/-- `Registry::get_addr::<A>(name)`: looks up the composed key. -/
def Registry.get_addr (reg : Registry) (A : String) (name : String) :
    Option ℕ :=
  reg.get_named (addrTypeName A) (addrTypeName A ++ "::" ++ name)

/-- The builder state relevant to address publication:
`addrs: HashMap<String, Box<dyn Any + Send + Sync>>` plus the registry. -/
structure Builder where
  addrs : String → Option DynBox
  reg : Registry

/-- `Builder::new()`. -/
def Builder.new : Builder :=
  { addrs := fun _ => none, reg := Registry.emptyReg }

/-- `Builder::reserve::<A>(name, mailbox)`: creates the reserved mailbox,
then publishes the address by `self.addrs.insert(name, addr)` and
`self.reg.insert_addr::<A>(name, addr)`. Both inserts silently overwrite;
there is no occupancy check and no failure path. -/
def Builder.reserve (b : Builder) (A : String) (name : String) (addr : ℕ) :
    Builder :=
  { addrs := fun n =>
      if n = name then some (addrTypeName A, addr) else b.addrs n,
    reg := b.reg.insert_addr A name addr }

/-- `Builder::spawn::<A>(name, mailbox, new)`: spawns the actor, then
publishes by `self.addrs.insert(name, addr)` and
`self.reg.insert_named::<Addr<A>>(name, addr)` — the raw name, not the
type-composed key. -/
def Builder.spawn (b : Builder) (A : String) (name : String) (addr : ℕ) :
    Builder :=
  { addrs := fun n =>
      if n = name then some (addrTypeName A, addr) else b.addrs n,
    reg := b.reg.insert_named name (addrTypeName A) addr }

/-- `Reserved<A>`: the pre-created mailbox; `rx` is `None` once taken. -/
structure ReservedActor where
  name : String
  addr : ℕ
  rx : Option ℕ

/-- `Reserved::start_with_shutdown`: `self.rx.take().expect("Reserved::start
called twice")` — `none` embeds the panic on a second start; otherwise the
actor task starts and the handle keeps the reserved address. -/
def ReservedActor.startHandleAddr (r : ReservedActor) : Option ℕ :=
  match r.rx with
  | some _ => some r.addr
  | none => none

/-! ## Helper lemmas -/

/-- With a monotone clock (`last ≤ now`), `needed_wait` is exactly the
refill-then-branch of the spec. -/
theorem BucketState.needed_wait_eq (b : BucketState) (need now : ℚ)
    (hlast : b.last ≤ now) :
    b.needed_wait need now =
      if need ≤ min (b.tokens + (now - b.last) * b.cfg.qps) b.cfg.burst then
        ({ b with
            tokens := min (b.tokens + (now - b.last) * b.cfg.qps) b.cfg.burst
                        - need,
            last := now }, 0)
      else
        ({ b with tokens := 0, last := now },
          max ((need - min (b.tokens + (now - b.last) * b.cfg.qps)
                  b.cfg.burst) / b.cfg.qps) 0) := by
  have hdt : max (now - b.last) 0 = now - b.last :=
    max_eq_left (by linarith)
  unfold BucketState.needed_wait
  simp only [hdt]

/-- After `needed_wait`, tokens are nonnegative and at most
`max burst 0`, and the configuration is unchanged. -/
theorem BucketState.needed_wait_tokens_bound (b : BucketState)
    (need now : ℚ) (hneed : 0 ≤ need) :
    0 ≤ (b.needed_wait need now).1.tokens ∧
    (b.needed_wait need now).1.tokens ≤ max b.cfg.burst 0 ∧
    (b.needed_wait need now).1.cfg = b.cfg := by
  unfold BucketState.needed_wait
  set refilled := min (b.tokens + max (now - b.last) 0 * b.cfg.qps)
    b.cfg.burst with hre
  by_cases hc : need ≤ refilled
  · simp only [hc, if_pos]
    refine ⟨by linarith, ?_, trivial⟩
    have h1 : refilled ≤ b.cfg.burst := min_le_right _ _
    have h2 : b.cfg.burst ≤ max b.cfg.burst 0 := le_max_left _ _
    linarith
  · simp only [hc, if_neg, not_false_iff]
    exact ⟨le_refl 0, le_max_right _ _, trivial⟩

/-- The between-dispatch bucket invariant, relative to a per-key bound `B`:
tokens are nonnegative and both the tokens and the configured burst are at
most `B k`. -/
def RateInv (B : String → ℚ) (bs : Buckets) : Prop :=
  ∀ k st, bs k = some st → 0 ≤ st.tokens ∧ st.tokens ≤ B k ∧ st.cfg.burst ≤ B k

/-- Dispatching one rate-limiter message preserves `RateInv B`, provided
`B` dominates the default burst `1` and the burst of the message if it is
an `Upsert`. -/
theorem RateLimiter.handle_preserves_inv (B : String → ℚ) (bs : Buckets)
    (m : RateMsg) (hB : ∀ k, 1 ≤ B k)
    (hm : ∀ k q n t, m = RateMsg.upsert k q n t → (n : ℚ) ≤ B k)
    (hinv : RateInv B bs) :
    RateInv B (RateLimiter.handle m bs).1 := by
  cases m with
  | upsert key qps burst now =>
      intro k st hst
      simp only [RateLimiter.handle, RateLimiter.upsert] at hst
      have hburst : (burst : ℚ) ≤ B key := hm key qps burst now rfl
      by_cases hk : k = key
      · subst hk
        simp only [if_pos rfl] at hst
        cases hbk : bs k with
        | some b =>
            rw [hbk] at hst
            obtain ⟨h1, h2, _⟩ := hinv k b hbk
            cases hst
            exact ⟨h1, h2, hburst⟩
        | none =>
            rw [hbk] at hst
            cases hst
            exact ⟨Nat.cast_nonneg _, hburst, hburst⟩
      · rw [if_neg hk] at hst
        exact hinv k st hst
  | acquire key cost now =>
      intro k st hst
      simp only [RateLimiter.handle, RateLimiter.acquire] at hst
      by_cases hk : k = key
      · subst hk
        rw [if_pos rfl] at hst
        have hBk0 : (0 : ℚ) ≤ B k := le_trans zero_le_one (hB k)
        cases hbk : bs k with
        | some b =>
            rw [hbk] at hst
            obtain ⟨_, _, hbb⟩ := hinv k b hbk
            obtain ⟨ht0, htb, hcfg⟩ :=
              b.needed_wait_tokens_bound (cost : ℚ) now (Nat.cast_nonneg _)
            cases hst
            refine ⟨ht0, le_trans htb (max_le hbb hBk0), ?_⟩
            rw [hcfg]; exact hbb
        | none =>
            rw [hbk] at hst
            have hbb : (BucketState.new { qps := 1, burst := 1 } now).cfg.burst
                ≤ B k := by
              simpa [BucketState.new] using hB k
            obtain ⟨ht0, htb, hcfg⟩ :=
              (BucketState.new { qps := 1, burst := 1 } now).needed_wait_tokens_bound
                (cost : ℚ) now (Nat.cast_nonneg _)
            cases hst
            refine ⟨ht0, le_trans htb (max_le hbb hBk0), ?_⟩
            rw [hcfg]; exact hbb
      · rw [if_neg hk] at hst
        exact hinv k st hst

/-- `RateLimiter.run` preserves `RateInv B` along any message list whose
upsert bursts are dominated by `B`. -/
theorem RateLimiter.run_preserves_inv (msgs : List RateMsg)
    (B : String → ℚ) (bs : Buckets) (hB : ∀ k, 1 ≤ B k)
    (hmsgs : ∀ k q n t, RateMsg.upsert k q n t ∈ msgs → (n : ℚ) ≤ B k)
    (hinv : RateInv B bs) :
    RateInv B (RateLimiter.run msgs bs) := by
  induction msgs generalizing bs with
  | nil => exact hinv
  | cons m rest ih =>
      have hstep : RateLimiter.run (m :: rest) bs
          = RateLimiter.run rest (RateLimiter.handle m bs).1 := rfl
      rw [hstep]
      refine ih (RateLimiter.handle m bs).1
        (fun k q n t hmem => hmsgs k q n t (List.mem_cons_of_mem _ hmem)) ?_
      exact RateLimiter.handle_preserves_inv B bs m hB
        (fun k q n t hmeq => hmsgs k q n t (hmeq ▸ List.mem_cons_self _ _))
        hinv

/-! ## Claim theorems -/

/-- C2 (code evaluated at the failing input): an `Upsert` with `qps = 0`
is stored unchanged — `RateLimiter::upsert` performs no validation, so the
bucket map afterwards holds a configuration with `qps = 0`, contradicting
the requirement that `qps ≤ 0` MUST fail the `Upsert` and store nothing.
(The source's own comment at `rate.rs:69` flags the missing guard.) -/
theorem rate_upsert_stores_nonpositive_qps :
    RateLimiter.upsert Buckets.empty "k" 0 1 0 "k" =
      some { cfg := { qps := 0, burst := 1 }, tokens := 1, last := 0 } ∧
    (RateLimiter.handle (RateMsg.upsert "k" 0 1 0) Buckets.empty).1 "k" =
      some { cfg := { qps := 0, burst := 1 }, tokens := 1, last := 0 } := by
  exact ⟨rfl, rfl⟩

/-- C3 (counterexample): after `Upsert{k, qps 1, burst 10}` followed by
`Upsert{k, qps 1, burst 1}`, the bucket holds `tokens = 10` while its
currently configured burst is `1`, so `tokens ≤ burst` fails between
dispatches: `Upsert` replaces the configuration without clamping the
stored tokens. -/
theorem rate_tokens_exceed_burst_cex :
    RateLimiter.run
        [RateMsg.upsert "k" 1 10 0, RateMsg.upsert "k" 1 1 0]
        Buckets.empty "k" =
      some { cfg := { qps := 1, burst := 1 }, tokens := 10, last := 0 } ∧
    ¬ ((10 : ℚ) ≤ (1 : ℚ)) := by
  refine ⟨rfl, by norm_num⟩

/-- C3 (amended): between any two message dispatches every bucket satisfies
`0 ≤ tokens`, and `tokens ≤ B k` and `burst ≤ B k` for any per-key bound
`B` that dominates the default burst `1` and every burst configured by an
`Upsert` in the run — i.e. tokens never exceed the largest burst ever
configured for the key. The stronger bound `tokens ≤ current burst` fails
when an `Upsert` shrinks `burst` below the stored tokens (see the
counterexample); it is restored only by the next `Acquire`'s refill. -/
theorem rate_tokens_within_max_burst (msgs : List RateMsg)
    (B : String → ℚ) (bs : Buckets) (hB : ∀ k, 1 ≤ B k)
    (hmsgs : ∀ k q n t, RateMsg.upsert k q n t ∈ msgs → (n : ℚ) ≤ B k)
    (hinv : RateInv B bs) :
    RateInv B (RateLimiter.run msgs bs) :=
  RateLimiter.run_preserves_inv msgs B bs hB hmsgs hinv

/-- Witness for `rate_tokens_within_max_burst` at a concrete run:
`Upsert{k, qps 2, burst 3}` then `Acquire{k, 1}` one second later leaves
the bucket at `tokens = 2`, within the bound `10`. -/
theorem rate_tokens_within_max_burst_witness :
    0 ≤ (⟨⟨2, 3⟩, 2, 1⟩ : BucketState).tokens ∧
    (⟨⟨2, 3⟩, 2, 1⟩ : BucketState).tokens ≤ (fun _ : String => (10 : ℚ)) "k" ∧
    (⟨⟨2, 3⟩, 2, 1⟩ : BucketState).cfg.burst ≤ (fun _ : String => (10 : ℚ)) "k" :=
  rate_tokens_within_max_burst
    [RateMsg.upsert "k" 2 3 0, RateMsg.acquire "k" 1 1]
    (fun _ => 10) Buckets.empty
    (fun _ => by norm_num)
    (by
      intro k q n t hm
      simp only [List.mem_cons, List.not_mem_nil, or_false] at hm
      rcases hm with hm | hm
      · cases hm; norm_num
      · simp at hm)
    (by intro k st h; cases h)
    "k" ⟨⟨2, 3⟩, 2, 1⟩ (by
      norm_num [RateLimiter.run, RateLimiter.handle, RateLimiter.acquire,
        RateLimiter.upsert, BucketState.needed_wait, BucketState.new,
        Buckets.empty])

/-- C1: handling `Acquire{key, cost}`. If `key` has no bucket, one is
created with defaults `qps = 1, burst = 1, tokens = burst`; the bucket is
then refilled (`tokens := min(tokens + (now − last)·qps, burst)`,
`last := now`); if the refilled tokens cover `cost` the wait is `0` and
tokens drop by exactly `cost`, otherwise the wait is
`(cost − tokens)/qps` and tokens are set to `0` (reservation); `cost = 0`
always yields an immediate (zero-wait) permit. The returned wait is what
the handler hands to the detached replying task — the actor loop itself
never sleeps, which the embedding reflects by `acquire` returning
immediately with the wait as data. -/
theorem rate_acquire_spec (bs : Buckets) (key : String) (cost : ℕ)
    (now : ℚ) :
    (bs key = none →
      ∃ st', (RateLimiter.acquire bs key cost now).1 key = some st' ∧
        st'.cfg = { qps := 1, burst := 1 } ∧ st'.last = now ∧
        ((cost : ℚ) ≤ 1 →
          (RateLimiter.acquire bs key cost now).2 = 0 ∧
          st'.tokens = 1 - (cost : ℚ)) ∧
        (1 < (cost : ℚ) →
          (RateLimiter.acquire bs key cost now).2 = ((cost : ℚ) - 1) / 1 ∧
          st'.tokens = 0) ∧
        (cost = 0 → (RateLimiter.acquire bs key cost now).2 = 0)) ∧
    (∀ st, bs key = some st → 0 ≤ st.tokens → st.last ≤ now →
      0 < st.cfg.qps → 0 ≤ st.cfg.burst →
      ∃ st', (RateLimiter.acquire bs key cost now).1 key = some st' ∧
        st'.last = now ∧ st'.cfg = st.cfg ∧
        ((cost : ℚ) ≤
            min (st.tokens + (now - st.last) * st.cfg.qps) st.cfg.burst →
          (RateLimiter.acquire bs key cost now).2 = 0 ∧
          st'.tokens =
            min (st.tokens + (now - st.last) * st.cfg.qps) st.cfg.burst
              - (cost : ℚ)) ∧
        (min (st.tokens + (now - st.last) * st.cfg.qps) st.cfg.burst
            < (cost : ℚ) →
          (RateLimiter.acquire bs key cost now).2 =
            ((cost : ℚ)
              - min (st.tokens + (now - st.last) * st.cfg.qps) st.cfg.burst)
              / st.cfg.qps ∧
          st'.tokens = 0) ∧
        (cost = 0 → (RateLimiter.acquire bs key cost now).2 = 0)) := by
  constructor
  · intro hnone
    have hacq : RateLimiter.acquire bs key cost now =
        ((fun k => if k = key then
            some ((BucketState.new { qps := 1, burst := 1 } now).needed_wait
              (cost : ℚ) now).1 else bs k),
          ((BucketState.new { qps := 1, burst := 1 } now).needed_wait
              (cost : ℚ) now).2) := by
      simp [RateLimiter.acquire, hnone]
    have hnw : (BucketState.new { qps := 1, burst := 1 } now).needed_wait
        (cost : ℚ) now =
        if (cost : ℚ) ≤ 1 then
          ({ cfg := { qps := 1, burst := 1 },
              tokens := 1 - (cost : ℚ), last := now }, 0)
        else
          ({ cfg := { qps := 1, burst := 1 }, tokens := 0, last := now },
            max (((cost : ℚ) - 1) / 1) 0) := by
      rw [BucketState.needed_wait_eq _ _ _ (le_refl now)]
      norm_num [BucketState.new]
    by_cases hc : (cost : ℚ) ≤ 1
    · rw [if_pos hc] at hnw
      refine ⟨BucketState.mk { qps := 1, burst := 1 } (1 - (cost : ℚ)) now,
        ?_, rfl, rfl,
        fun _ => ⟨?_, rfl⟩, fun h1 => absurd hc (not_le.mpr h1), fun _ => ?_⟩
      · rw [hacq]; simp [hnw]
      · rw [hacq]; simp [hnw]
      · rw [hacq]; simp [hnw]
    · rw [if_neg hc] at hnw
      push_neg at hc
      have hpos : 0 ≤ ((cost : ℚ) - 1) / 1 := by
        rw [div_one]; linarith
      refine ⟨BucketState.mk { qps := 1, burst := 1 } 0 now,
        ?_, rfl, rfl, fun h1 => absurd h1 (not_le.mpr hc), fun _ => ⟨?_, rfl⟩,
        fun h0 => ?_⟩
      · rw [hacq]; simp [hnw]
      · rw [hacq]; simp [hnw, max_eq_left hpos]
        exact_mod_cast le_of_lt hc
      · exfalso
        rw [h0] at hc
        norm_num at hc
  · intro st hsome h0 hlast hq hb
    have hacq : RateLimiter.acquire bs key cost now =
        ((fun k => if k = key then
            some (st.needed_wait (cost : ℚ) now).1 else bs k),
          (st.needed_wait (cost : ℚ) now).2) := by
      simp [RateLimiter.acquire, hsome]
    have hnw := st.needed_wait_eq (cost : ℚ) now hlast
    have hrefill : 0 ≤
        min (st.tokens + (now - st.last) * st.cfg.qps) st.cfg.burst :=
      le_min
        (add_nonneg h0 (mul_nonneg (sub_nonneg.mpr hlast) (le_of_lt hq)))
        hb
    by_cases hc : (cost : ℚ) ≤
        min (st.tokens + (now - st.last) * st.cfg.qps) st.cfg.burst
    · rw [if_pos hc] at hnw
      refine ⟨(st.needed_wait (cost : ℚ) now).1, ?_, ?_, ?_,
        fun _ => ⟨?_, ?_⟩, fun h1 => absurd hc (not_le.mpr h1),
        fun _ => ?_⟩
      · rw [hacq]; simp
      · rw [hnw]
      · rw [hnw]
      · rw [hacq]; simp [hnw]
      · rw [hnw]
      · rw [hacq]; simp [hnw]
    · rw [if_neg hc] at hnw
      push_neg at hc
      have hwpos : 0 ≤ ((cost : ℚ)
          - min (st.tokens + (now - st.last) * st.cfg.qps) st.cfg.burst)
          / st.cfg.qps :=
        div_nonneg (by linarith) (le_of_lt hq)
      refine ⟨(st.needed_wait (cost : ℚ) now).1, ?_, ?_, ?_,
        fun h1 => absurd h1 (not_le.mpr hc), fun _ => ⟨?_, ?_⟩,
        fun h0 => ?_⟩
      · rw [hacq]; simp
      · rw [hnw]
      · rw [hnw]
      · rw [hacq]; simp [hnw, max_eq_left hwpos]
      · rw [hnw]
      · exfalso
        rw [h0] at hc
        simp only [Nat.cast_zero] at hc
        linarith

/-- Witness for `rate_acquire_spec`: a bucket `qps = 2, burst = 5,
tokens = 3, last = 0` acquired with `cost = 4` at `now = 1` refills to
`5` and grants a zero wait with `tokens = 1` left; the same acquire on an
unknown key creates the default bucket. -/
theorem rate_acquire_spec_witness :
    ((fun k => if k = "k" then
        some (⟨⟨2, 5⟩, 3, 0⟩ : BucketState) else none : Buckets) "k"
      = some (⟨⟨2, 5⟩, 3, 0⟩ : BucketState)) ∧
    (0 : ℚ) ≤ (3 : ℚ) ∧ (0 : ℚ) ≤ (1 : ℚ) ∧ (0 : ℚ) < (2 : ℚ) ∧
    (0 : ℚ) ≤ (5 : ℚ) ∧
    (∃ st', (RateLimiter.acquire
        (fun k => if k = "k" then
          some (⟨⟨2, 5⟩, 3, 0⟩ : BucketState) else none) "k" 4 1).1 "k"
        = some st' ∧
      st'.last = 1 ∧ st'.cfg = (⟨⟨2, 5⟩, 3, 0⟩ : BucketState).cfg ∧
      (((4 : ℕ) : ℚ) ≤
          min ((3 : ℚ) + ((1 : ℚ) - 0) * 2) 5 →
        (RateLimiter.acquire
          (fun k => if k = "k" then
            some (⟨⟨2, 5⟩, 3, 0⟩ : BucketState) else none) "k" 4 1).2 = 0 ∧
        st'.tokens = min ((3 : ℚ) + ((1 : ℚ) - 0) * 2) 5 - ((4 : ℕ) : ℚ)) ∧
      (min ((3 : ℚ) + ((1 : ℚ) - 0) * 2) 5 < ((4 : ℕ) : ℚ) →
        (RateLimiter.acquire
          (fun k => if k = "k" then
            some (⟨⟨2, 5⟩, 3, 0⟩ : BucketState) else none) "k" 4 1).2 =
          (((4 : ℕ) : ℚ) - min ((3 : ℚ) + ((1 : ℚ) - 0) * 2) 5) / 2 ∧
        st'.tokens = 0) ∧
      ((4 : ℕ) = 0 →
        (RateLimiter.acquire
          (fun k => if k = "k" then
            some (⟨⟨2, 5⟩, 3, 0⟩ : BucketState) else none) "k" 4 1).2 = 0)) := by
  refine ⟨by simp, by norm_num, by norm_num, by norm_num, by norm_num, ?_⟩
  have h := (rate_acquire_spec
      (fun k => if k = "k" then
        some (⟨⟨2, 5⟩, 3, 0⟩ : BucketState) else none) "k" 4 1).2
    (⟨⟨2, 5⟩, 3, 0⟩ : BucketState) (by simp) (by norm_num) (by norm_num)
    (by norm_num) (by norm_num)
  exact h

/-- C4: (i) handling `ArtifactUpserted{c}` empties the watcher set for `c`
and attempts exactly one send to each watcher that was in the set — every
id's fire count grows by exactly its multiplicity in the set; (ii)
handling `WatchArtifacts{c, w}` fires nothing and registers `w`; (iii) a
live (non-closed) watcher already registered for `c` stays registered
across any messages that are not `ArtifactUpserted{c}` — so every watcher
registered before the notification is handled receives exactly one fire
and is removed, while one registered after it can only fire on the next
relevant upsert. -/
theorem store_watchers_fire_once :
    (∀ (s : StoreState) (c : String),
      (StoreActor.handle (StoreMsg.artifactUpserted c) s).watchers c = [] ∧
      (StoreActor.handle (StoreMsg.artifactUpserted c) s).fires
        = s.fires ++ (s.watchers c).map (·.id) ∧
      ∀ i : ℕ,
        ((StoreActor.handle (StoreMsg.artifactUpserted c) s).fires).count i
          = s.fires.count i + ((s.watchers c).map (·.id)).count i) ∧
    (∀ (s : StoreState) (c : String) (w : Watcher),
      (StoreActor.handle (StoreMsg.watchArtifacts c w) s).fires = s.fires ∧
      w ∈ (StoreActor.handle (StoreMsg.watchArtifacts c w) s).watchers c) ∧
    (∀ (s : StoreState) (c : String) (w : Watcher) (ms : List StoreMsg),
      w.closed = false → w ∈ s.watchers c →
      (∀ m ∈ ms, m ≠ StoreMsg.artifactUpserted c) →
      w ∈ (StoreActor.run ms s).watchers c) := by
  refine ⟨?_, ?_, ?_⟩
  · intro s c
    refine ⟨by simp [StoreActor.handle], by simp [StoreActor.handle], ?_⟩
    intro i
    simp [StoreActor.handle, List.count_append]
  · intro s c w
    exact ⟨rfl, by simp [StoreActor.handle]⟩
  · intro s c w ms hw hmem hno
    induction ms generalizing s with
    | nil => exact hmem
    | cons m rest ih =>
        have hstep : StoreActor.run (m :: rest) s
            = StoreActor.run rest (StoreActor.handle m s) := rfl
        rw [hstep]
        refine ih (StoreActor.handle m s) ?_
          (fun m' hm' => hno m' (List.mem_cons_of_mem _ hm'))
        have hnotup : m ≠ StoreMsg.artifactUpserted c :=
          hno m (List.mem_cons_self _ _)
        cases m with
        | watchArtifacts c' w' =>
            by_cases hc : c = c'
            · subst hc
              simp only [StoreActor.handle, if_pos, if_true]
              refine List.mem_append_left _ ?_
              rw [List.mem_filter]
              exact ⟨hmem, by simp [hw]⟩
            · simpa [StoreActor.handle, hc] using hmem
        | artifactUpserted c' =>
            have hc : c ≠ c' := fun h => hnotup (by rw [h])
            simpa [StoreActor.handle, hc] using hmem
        | insertClaim => exact hmem
        | upsertArtifact c' r => exact hmem
        | getArtifact => exact hmem
        | searchArtifacts => exact hmem
        | listEntitiesByName => exact hmem

/-- Witness for `store_watchers_fire_once`: the live watcher `5` for claim
`"c"` survives a `GetArtifact` and a later registration of watcher `6`. -/
theorem store_watchers_fire_once_witness :
    (⟨5, false⟩ : Watcher) ∈
      (StoreActor.run
        [StoreMsg.getArtifact, StoreMsg.watchArtifacts "c" ⟨6, true⟩]
        ⟨fun k => if k = "c" then [⟨5, false⟩] else [], []⟩).watchers "c" :=
  store_watchers_fire_once.2.2
    ⟨fun k => if k = "c" then [⟨5, false⟩] else [], []⟩ "c" ⟨5, false⟩
    [StoreMsg.getArtifact, StoreMsg.watchArtifacts "c" ⟨6, true⟩]
    rfl (by simp) (by decide)

/-- C5: the detached task spawned for `UpsertArtifact` self-enqueues
`ArtifactUpserted{claim}` exactly when the permit was obtained, the write
succeeded, and `claim_relevance` is true; a failed write is logged under
the structured kind `store.upsert.failed` and no reply is ever sent (the
message has no reply channel); when the permit is obtained the task first
acquires it and performs the write, and releases it last; the
`GetArtifact` task never touches the write permit and replies to its
caller. -/
theorem store_upsert_task_spec :
    (∀ (permitOk writeOk relevant : Bool) (claim : String),
      (StoreEvent.enqueueSelf claim
          ∈ upsertTaskEvents permitOk writeOk relevant claim ↔
        permitOk = true ∧ writeOk = true ∧ relevant = true) ∧
      (permitOk = true → writeOk = false →
        StoreEvent.logError "store.upsert.failed"
          ∈ upsertTaskEvents permitOk writeOk relevant claim) ∧
      StoreEvent.replySent ∉ upsertTaskEvents permitOk writeOk relevant claim ∧
      (permitOk = true → ∃ mid,
        upsertTaskEvents permitOk writeOk relevant claim
          = StoreEvent.acquirePermit :: StoreEvent.write ::
              (mid ++ [StoreEvent.releasePermit]))) ∧
    (StoreEvent.acquirePermit ∉ getArtifactTaskEvents ∧
      StoreEvent.replySent ∈ getArtifactTaskEvents) := by
  refine ⟨?_, by decide, by decide⟩
  intro permitOk writeOk relevant claim
  refine ⟨?_, ?_, ?_, ?_⟩
  · cases permitOk <;> cases writeOk <;> cases relevant <;>
      simp [upsertTaskEvents]
  · intro hp hw
    subst hp; subst hw
    cases relevant <;> simp [upsertTaskEvents]
  · cases permitOk <;> cases writeOk <;> cases relevant <;>
      simp [upsertTaskEvents]
  · intro hp
    subst hp
    cases writeOk <;> cases relevant
    · exact ⟨[StoreEvent.logError "store.upsert.failed"],
        by simp [upsertTaskEvents]⟩
    · exact ⟨[StoreEvent.logError "store.upsert.failed"],
        by simp [upsertTaskEvents]⟩
    · exact ⟨[], by simp [upsertTaskEvents]⟩
    · exact ⟨[StoreEvent.enqueueSelf claim], by simp [upsertTaskEvents]⟩

/-- Witness for `store_upsert_task_spec`: with the permit obtained and a
failed write, the task logs `store.upsert.failed`. -/
theorem store_upsert_task_spec_witness :
    StoreEvent.logError "store.upsert.failed"
      ∈ upsertTaskEvents true false true "c" :=
  ((store_upsert_task_spec.1 true false true "c").2.1 rfl rfl)

/-- The actor loop's result coincides with the stop-cause classification:
`Err(e)` exactly on a handler error `e`, `Ok(())` exactly on the other
three stop causes. -/
theorem actorLoop_matches_cause {S M E : Type} (h : Handler S M E) (s : S)
    (evs : List (LoopEvent M)) :
    (∀ e : E, actorLoop h s evs = some (Except.error e) ↔
        actorStopReason h s evs = some (StopReason.handlerError e)) ∧
    (actorLoop h s evs = some (Except.ok ()) ↔
        (actorStopReason h s evs = some StopReason.shutdownReceived ∨
         actorStopReason h s evs = some StopReason.mailboxDropped ∨
         actorStopReason h s evs = some StopReason.stopRequested)) := by
  induction evs generalizing s with
  | nil => simp [actorLoop, actorStopReason]
  | cons ev rest ih =>
      cases ev with
      | shutdownSignal => simp [actorLoop, actorStopReason]
      | mailboxClosed => simp [actorLoop, actorStopReason]
      | message m =>
          rcases heq : h s m with ⟨s', err, stop⟩
          cases err with
          | some e => simp [actorLoop, actorStopReason, heq]
          | none =>
              cases stop with
              | true => simp [actorLoop, actorStopReason, heq]
              | false => simpa [actorLoop, actorStopReason, heq] using ih s'

/-- C6: for an actor started by `spawn_actor_with_shutdown` or by
`Reserved::start_with_shutdown`, the join-future resolves to `Err(e)`
exactly when some `handle` call returned `Err(e)` (which terminates the
actor), and resolves to `Ok(())` in exactly the other stop cases: a
shutdown signal received, the mailbox closed because every address was
dropped, or a handler set `context.stop`. Both spawn paths run the same
loop. -/
theorem actor_join_result_spec :
    ∀ (S M E : Type) (h : Handler S M E) (s : S) (evs : List (LoopEvent M)),
      (∀ e : E, spawnActorJoin h s evs = some (Except.error e) ↔
          actorStopReason h s evs = some (StopReason.handlerError e)) ∧
      (spawnActorJoin h s evs = some (Except.ok ()) ↔
          (actorStopReason h s evs = some StopReason.shutdownReceived ∨
           actorStopReason h s evs = some StopReason.mailboxDropped ∨
           actorStopReason h s evs = some StopReason.stopRequested)) ∧
      reservedStartJoin h s evs = spawnActorJoin h s evs :=
  fun _ _ _ h s evs =>
    ⟨(actorLoop_matches_cause h s evs).1,
     (actorLoop_matches_cause h s evs).2, rfl⟩

/-- `joinAll` succeeds exactly when every joined task succeeded. -/
theorem joinAll_ok_iff {E : Type} (tasks : List (Except E Unit)) :
    joinAll tasks = Except.ok () ↔ ∀ r ∈ tasks, r = Except.ok () := by
  induction tasks with
  | nil => simp [joinAll]
  | cons t rest ih =>
      cases t with
      | ok u =>
          cases u
          rw [show joinAll (Except.ok () :: rest) = joinAll rest from rfl, ih]
          simp
      | error e => simp [joinAll]

/-- `joinAll` returns `error e` exactly when `e` is the first failure. -/
theorem joinAll_error_iff {E : Type} (tasks : List (Except E Unit)) (e : E) :
    joinAll tasks = Except.error e ↔
      ∃ pre suf, tasks = pre ++ Except.error e :: suf ∧
        ∀ r ∈ pre, r = Except.ok () := by
  induction tasks with
  | nil =>
      constructor
      · intro h; cases h
      · rintro ⟨pre, suf, hsplit, -⟩
        cases pre <;> simp_all
  | cons t rest ih =>
      cases t with
      | ok u =>
          cases u
          rw [show joinAll (Except.ok () :: rest) = joinAll rest from rfl, ih]
          constructor
          · rintro ⟨pre, suf, hsplit, hpre⟩
            refine ⟨Except.ok () :: pre, suf, by rw [hsplit]; rfl, ?_⟩
            intro r hr
            rcases List.mem_cons.mp hr with hr | hr
            · exact hr
            · exact hpre r hr
          · rintro ⟨pre, suf, hsplit, hpre⟩
            cases pre with
            | nil => cases hsplit
            | cons p pre' =>
                injection hsplit with h1 h2
                exact ⟨pre', suf, h2,
                  fun r hr => hpre r (List.mem_cons_of_mem _ hr)⟩
      | error e' =>
          constructor
          · intro h
            have he : e' = e := by
              have : Except.error (α := Unit) e' = Except.error e := by
                simpa [joinAll] using h
              injection this
            subst he
            exact ⟨[], rest, rfl, by simp⟩
          · rintro ⟨pre, suf, hsplit, hpre⟩
            cases pre with
            | nil =>
                simp only [List.nil_append] at hsplit
                injection hsplit with h1 h2
            | cons p pre' =>
                have hp : p = Except.ok () :=
                  hpre p (List.mem_cons_self _ _)
                injection hsplit with h1 h2
                rw [hp] at h1
                cases h1

/-- C7: `ActorSystem::graceful_shutdown` fires the shutdown signal and
then joins every tracked task, propagating the first failure: the result
is `Ok(())` iff every tracked task completed with `Ok(())`, and is
`Err(e)` iff the join order splits as successful tasks followed by the
first failing task with error `e`. -/
theorem graceful_shutdown_first_failure :
    ∀ (E : Type) (tasks : List (Except E Unit)),
      (gracefulShutdown tasks).signalFired = true ∧
      ((gracefulShutdown tasks).result = Except.ok () ↔
        ∀ r ∈ tasks, r = Except.ok ()) ∧
      ∀ e : E, ((gracefulShutdown tasks).result = Except.error e ↔
        ∃ pre suf : List (Except E Unit),
          tasks = pre ++ Except.error e :: suf ∧
          ∀ r ∈ pre, r = Except.ok ()) :=
  fun _ tasks =>
    ⟨rfl, joinAll_ok_iff tasks, fun e => joinAll_error_iff tasks e⟩

/-- Registry built from a list of `insert_named` calls, starting empty. -/
def Registry.ofInserts (l : List (String × String × ℕ)) : Registry :=
  l.foldl (fun r e => r.insert_named e.1 e.2.1 e.2.2) Registry.emptyReg

/-- A name not named by any insert stays absent through the fold. -/
theorem Registry.foldl_absent (l : List (String × String × ℕ))
    (name : String) :
    ∀ reg : Registry, (∀ e ∈ l, e.1 ≠ name) → reg name = none →
      (l.foldl (fun r e => r.insert_named e.1 e.2.1 e.2.2) reg) name
        = none := by
  induction l with
  | nil => intro reg _ hreg; exact hreg
  | cons e rest ih =>
      intro reg h hreg
      have hne : name ≠ e.1 :=
        fun hcontra => (h e (List.mem_cons_self _ _)) hcontra.symm
      have hstep : (reg.insert_named e.1 e.2.1 e.2.2) name = none := by
        unfold Registry.insert_named
        rw [if_neg hne]
        exact hreg
      exact ih (reg.insert_named e.1 e.2.1 e.2.2)
        (fun e' he' => h e' (List.mem_cons_of_mem _ he')) hstep

/-- C8: a registry lookup for a name never inserted returns `None`, and a
lookup that finds a stored value whose dynamic type differs from the
requested type returns `None` (the failed downcast is an `Option`, not a
panic). -/
theorem registry_lookup_none_on_miss_or_mismatch :
    (∀ (inserts : List (String × String × ℕ)) (ty name : String),
      (∀ e ∈ inserts, e.1 ≠ name) →
      (Registry.ofInserts inserts).get_named ty name = none) ∧
    (∀ (reg : Registry) (ty name t : String) (v : ℕ),
      reg name = some (t, v) → t ≠ ty →
      reg.get_named ty name = none) := by
  constructor
  · intro inserts ty name h
    unfold Registry.get_named Registry.ofInserts
    rw [Registry.foldl_absent inserts name Registry.emptyReg h rfl]
  · intro reg ty name t v hsome hne
    unfold Registry.get_named
    rw [hsome]
    simp [hne]

/-- Witness for `registry_lookup_none_on_miss_or_mismatch`: looking up
the never-inserted name `b` misses, and a stored `T`-typed value is not
returned as a `U`. -/
theorem registry_lookup_none_witness :
    (Registry.ofInserts [("a", "T", 1)]).get_named "T" "b" = none ∧
    (Registry.emptyReg.insert_named "n" "T" 5).get_named "U" "n" = none :=
  ⟨registry_lookup_none_on_miss_or_mismatch.1 [("a", "T", 1)] "T" "b"
      (by decide),
   registry_lookup_none_on_miss_or_mismatch.2
      (Registry.emptyReg.insert_named "n" "T" 5) "U" "n" "T" 5 rfl
      (by decide)⟩

/-- C9 (counterexample): reserving the name `n` twice is a silent
success, not a fatal failure — the second `Builder::reserve` completes
and overwrites the published address in both the builder's map and the
registry (the second address `2` replaces the first `1`); no code path in
`Builder::reserve`, `Registry::insert_named` or `spawn_actor_reserved`
fails. -/
theorem builder_reserve_twice_silent_cex :
    ((Builder.new.reserve "A" "n" 1).reserve "A" "n" 2).reg.get_addr
        "A" "n" = some 2 ∧
    ((Builder.new.reserve "A" "n" 1).reserve "A" "n" 2).addrs "n"
        = some (addrTypeName "A", 2) :=
  ⟨rfl, rfl⟩

/-- C9 (amended): reserving a name twice is not detected: the second
`reserve` silently succeeds and overwrites the published address in both
the builder's address map and the registry. The fatal (panic-equivalent)
behavior belongs to starting the same `Reserved` twice
(`rx.take().expect(...)`), not to reserving a name twice. -/
theorem builder_reserve_twice_overwrites :
    ∀ (b : Builder) (A name : String) (a1 a2 : ℕ),
      ((b.reserve A name a1).reserve A name a2).addrs name
          = some (addrTypeName A, a2) ∧
      ((b.reserve A name a1).reserve A name a2).reg.get_addr A name
          = some a2 ∧
      ∀ r : ReservedActor, r.rx = none → r.startHandleAddr = none := by
  intro b A name a1 a2
  refine ⟨by simp [Builder.reserve], ?_, ?_⟩
  · simp [Builder.reserve, Registry.get_addr, Registry.get_named,
      Registry.insert_addr, Registry.insert_named]
  · intro r hr
    simp [ReservedActor.startHandleAddr, hr]

/-- Witness for `builder_reserve_twice_overwrites`: a `Reserved` whose
receiver was already taken panics (embedded as `none`) on start. -/
theorem builder_reserve_twice_overwrites_witness :
    (⟨"n", 7, none⟩ : ReservedActor).startHandleAddr = none :=
  (builder_reserve_twice_overwrites Builder.new "A" "n" 1 2).2.2
    ⟨"n", 7, none⟩ rfl

/-- A type-composed registry key never collides with the raw name. -/
theorem composed_key_ne (s t : String) : s ++ "::" ++ t ≠ t := by
  intro h
  have hlen := congrArg String.length h
  rw [String.length_append, String.length_append] at hlen
  have h2 : ("::" : String).length = 2 := rfl
  rw [h2] at hlen
  omega

/-- C10: `Builder::reserve` publishes the address under the type-composed
key `type_name::<Addr<A>>() ++ "::" ++ name` (via `insert_addr`), while
`Builder::spawn` publishes under the raw `name` (via `insert_named`);
hence `get_addr` misses an address published by `spawn` and `get_named`
misses one published by `reserve`, while each matching pair of helpers
round-trips. -/
theorem builder_publish_key_mismatch :
    ∀ (A name : String) (addr : ℕ),
      (Builder.new.spawn A name addr).reg.get_addr A name = none ∧
      (Builder.new.reserve A name addr).reg.get_named (addrTypeName A) name
          = none ∧
      (Builder.new.reserve A name addr).reg.get_addr A name = some addr ∧
      (Builder.new.spawn A name addr).reg.get_named (addrTypeName A) name
          = some addr := by
  intro A name addr
  have hne : addrTypeName A ++ "::" ++ name ≠ name := composed_key_ne _ _
  have hne' : name ≠ addrTypeName A ++ "::" ++ name := fun h => hne h.symm
  refine ⟨?_, ?_, ?_, ?_⟩
  · simp [Builder.spawn, Builder.new, Registry.get_addr,
      Registry.get_named, Registry.insert_named, Registry.emptyReg, hne]
  · simp [Builder.reserve, Builder.new, Registry.get_addr,
      Registry.get_named, Registry.insert_addr, Registry.insert_named,
      Registry.emptyReg, hne']
  · simp [Builder.reserve, Builder.new, Registry.get_addr,
      Registry.get_named, Registry.insert_addr, Registry.insert_named]
  · simp [Builder.spawn, Builder.new, Registry.get_addr,
      Registry.get_named, Registry.insert_named]

end Nowhere
